import Mathlib

/-!
Shallow embedding of ruimarinho/libphonenumber-hook.

The repository has two variants of the same webhook pipeline:

* Variant A, `src/api/handler.go` (package `handler`): clone the downstream
  repository, then download each of a fixed list of files from the raw-file
  host, commit, push, open a pull request.
* Variant B, `src/webhooks/handler.go` (package `function`): clone, download
  the release tarball, extract the matching entries, commit, push, open a
  pull request.

Pure string computations (version derivation, branch names, commit
messages, pull-request fields) are embedded directly.  The effectful
pipeline is embedded as a function from an explicit external world (the
outcomes of every external call: clone, HTTP fetches, file writes, git
operations) to the ordered list of performed external actions plus the
run's outcome.  Character lists stand for Go strings where recursion is
needed; `String` wraps them.
-/

namespace LibHook

/-- Bytes of a downloaded or extracted file, one natural number per byte. -/
abbrev Bytes := List Nat

/-- Whether `pat` is a leading segment of the second list (a match of the
pattern at the current scan position, as in Go's strings package). -/
def leads : List Char → List Char → Bool
  | [], _ => true
  | _ :: _, [] => false
  | p :: ps, c :: cs => p == c && leads ps cs

/-- One pass of Go `strings.Replace(s, old, new, -1)` (replace all,
left to right, non-overlapping) on char lists, with explicit fuel so the
recursion is structural; `replaceAll` supplies fuel equal to the list
length, which suffices because every step consumes at least one
character.  Faithful to the Go function for non-empty `old`, the only
patterns used in this repository. -/
def replaceAllAux (pat rep : List Char) : Nat → List Char → List Char
  | 0, l => l
  | _ + 1, [] => []
  | fuel + 1, c :: cs =>
    if leads pat (c :: cs) then
      rep ++ replaceAllAux pat rep fuel (List.drop (pat.length - 1) cs)
    else
      c :: replaceAllAux pat rep fuel cs

/-- Go `strings.Replace(s, old, new, -1)` on char lists (non-empty `old`). -/
def replaceAll (pat rep l : List Char) : List Char := replaceAllAux pat rep l.length l

/-- Go `strings.Replace(s, old, new, -1)` on strings (non-empty `old`). -/
def replaceAllStr (s pat rep : String) : String := ⟨replaceAll pat.data rep.data s.data⟩

/-- Whether `pat` occurs as a contiguous substring, as Go `strings.Contains`. -/
def hasSub (pat : List Char) : List Char → Bool
  | [] => pat.isEmpty
  | c :: cs => leads pat (c :: cs) || hasSub pat cs

/-- Go `strings.Contains(s, pat)`. -/
def containsSubstr (s pat : String) : Bool := hasSub pat.data s.data

/-- Substitute the first occurrence of `pat` (used for the single `%s` verb
of Go `fmt.Sprintf`): the replacement text is not rescanned, matching Go. -/
def subst1 (pat rep : List Char) : List Char → List Char
  | [] => []
  | c :: cs =>
    if leads pat (c :: cs) then rep ++ List.drop (pat.length - 1) cs
    else c :: subst1 pat rep cs

/-- Go `fmt.Sprintf(template, arg)` for a template with a single `%s` verb. -/
def formatS (template arg : String) : String := ⟨subst1 ['%', 's'] arg.data template.data⟩

/-- Go `filepath.Base` on unix paths: empty path gives ".", trailing
slashes are dropped, then everything after the last slash remains; an
all-slash path gives "/". -/
def baseName (s : String) : String :=
  if s.data = [] then "."
  else
    let revTrim := s.data.reverse.dropWhile (fun c => c == '/')
    let base := (revTrim.takeWhile (fun c => !(c == '/'))).reverse
    if base = [] then "/" else ⟨base⟩

/-- The version derived from a push reference:
`strings.Replace(push.Ref, "refs/tags/v", "", -1)`, identical at
api/handler.go line 90 and webhooks/handler.go line 53. -/
def deriveVersion (ref : String) : String := replaceAllStr ref "refs/tags/v" ""

/-- Constant from api/handler.go line 47. -/
def remoteRepositoryUsername : String := "ruimarinho"

/-- Constant from api/handler.go line 48. -/
def remoteRepositoryName : String := "google-libphonenumber"

/-- Constant from api/handler.go line 49. -/
def remoteBranchFormat : String := "support/update-libphonenumber-%s"

/-- Variant A branch name:
`fmt.Sprintf(remoteBranchFormat, strings.Replace(version, ".", "-", -1))`
(api/handler.go line 139). -/
def branchA (version : String) : String :=
  formatS remoteBranchFormat (replaceAllStr version "." "-")

/-- Variant A commit message: `fmt.Sprintf("Update libphonenumber@%s", version)`
(api/handler.go line 153). -/
def commitMessageA (version : String) : String :=
  formatS "Update libphonenumber@%s" version

/-- Variant A pull-request title (api/handler.go line 237). -/
def prTitleA (version : String) : String :=
  formatS "Update libphonenumber@%s" version

/-- Variant A pull-request head branch (api/handler.go line 238). -/
def prHeadA (version : String) : String :=
  formatS remoteBranchFormat (replaceAllStr version "." "-")

/-- Variant A pull-request base branch (api/handler.go line 239). -/
def prBaseA : String := "master"

/-- Variant A pull-request body (api/handler.go line 240). -/
def prBodyA (version : String) : String :=
  formatS "Update libphonenumber@%s." version

/-- Variant B branch name:
`fmt.Sprintf("support/update-libphonenumber-%s", tag)` with
`tag := strings.Replace(version, ".", "-", -1)` (webhooks/handler.go
lines 122 and 125, without the "refs/heads/" prefix added at checkout). -/
def branchB (version : String) : String :=
  formatS "support/update-libphonenumber-%s" (replaceAllStr version "." "-")

/-- Variant B commit message (webhooks/handler.go line 133). -/
def commitMessageB (version : String) : String :=
  formatS "Update libphonenumber@%s" version

/-- Variant B pull-request title (webhooks/handler.go line 196). -/
def prTitleB (version : String) : String :=
  formatS "Update libphonenumber@%s" version

/-- Variant B pull-request head branch (webhooks/handler.go line 197). -/
def prHeadB (version : String) : String :=
  formatS "support/update-libphonenumber-%s" (replaceAllStr version "." "-")

/-- Variant B pull-request base branch (webhooks/handler.go line 198). -/
def prBaseB : String := "master"

/-- Variant B pull-request body (webhooks/handler.go line 199). -/
def prBodyB (version : String) : String :=
  formatS "Update libphonenumber@%s." version

/-- The filenames list from api/handler.go lines 29 to 44: every javascript
file subject to modification on the upstream repository. -/
def filenames : List String :=
  ["asyoutypeformatter_test.js",
   "demo-compiled.js",
   "demo.js",
   "metadata.js",
   "metadatafortesting.js",
   "metadatalite.js",
   "phonemetadata.pb.js",
   "phonenumber.pb.js",
   "phonenumberutil.js",
   "phonenumberutil_test.js",
   "regioncodefortesting.js",
   "shortnumberinfo.js",
   "shortnumberinfo_test.js",
   "shortnumbermetadata.js"]

/-- CommitOptions from both handlers: whether to push after committing. -/
structure CommitOptions where
  push : Bool

/-- An external action performed by a pipeline run, in order.  HTTP
fetching actions record the configured client timeout in seconds
(0 when the default Go client, which has no timeout, is used). -/
inductive Action
  | parsePayload
  | cloneRepo (url : String) (clientTimeoutSec : Nat)
  | httpGet (url : String) (clientTimeoutSec : Nat)
  | writeFile (path : String) (content : Bytes)
  | checkout (branchRef : String)
  | commit (message : String)
  | push (refspec : String)
  | openPR (title head base body : String)
  deriving DecidableEq

/-- The HTTP response written by a handler, or the absence of one because
the invocation panicked (log.Panic) or exited (log.Fatal). -/
inductive HttpOut
  | wrote (status : Nat) (body : String)
  | panicked
  | fatalExit
  deriving DecidableEq

/-- The files staged by write actions of a trace, in order. -/
def stagedWrites (as : List Action) : List (String × Bytes) :=
  as.filterMap (fun a => match a with
    | Action.writeFile p c => some (p, c)
    | _ => none)

/-- Result of a raw-file HTTP GET in variant A: either a transport error
or a response carrying a status code and body bytes. -/
inductive RawResult
  | netErr
  | resp (status : Nat) (body : Bytes)
  deriving DecidableEq

/-- Body bytes of a raw-file response (meaningful on the resp case). -/
def respBody : RawResult → Bytes
  | RawResult.netErr => []
  | RawResult.resp _ b => b

/-- External world for variant A: outcome of every external call the
api/handler.go pipeline can make.  Function-valued fields give the
outcome per target path or URL. -/
structure WorldA where
  cloneOk : Bool
  createFails : String → Bool
  rawGet : String → RawResult
  copyFails : String → Bool
  checkoutOk : Bool
  commitOk : Bool
  pushOk : Bool
  prOk : Bool

/-- Temporary staging directory of variant A (ioutil.TempDir with the
repository-derived pattern; the concrete name is irrelevant and fixed
here). -/
def dirA : String := "/tmp/ruimarinho-google-libphonenumber"

/-- Variant A Clone (api/handler.go lines 108 to 128): clone the
downstream repository over https.  No custom HTTP client is installed in
this variant, so the transport has no configured timeout (recorded 0). -/
def CloneA (w : WorldA) : List Action × Bool :=
  ([Action.cloneRepo
      ("https://github.com/" ++ (remoteRepositoryUsername ++ "/" ++ remoteRepositoryName) ++ ".git") 0],
   w.cloneOk)

/-- Outcome of one variant A Download (api/handler.go lines 200 to 228). -/
inductive DlResult
  | fatal
  | errored
  | ok
  deriving DecidableEq

/-- Variant A Download: create the destination file, GET the raw URL with
`http.Get` (default client, no timeout), copy the body to the file.  The
response status is never inspected; a copy error calls log.Fatal. -/
def DownloadA (w : WorldA) (path directory : String) : List Action × DlResult :=
  let filename := baseName path
  let target := directory ++ "/" ++ filename
  let url := "https://raw.githubusercontent.com/" ++ path
  if w.createFails target then ([], DlResult.errored)
  else
    match w.rawGet url with
    | RawResult.netErr => ([Action.httpGet url 0], DlResult.errored)
    | RawResult.resp _status body =>
      if w.copyFails target then ([Action.httpGet url 0], DlResult.fatal)
      else ([Action.httpGet url 0, Action.writeFile target body], DlResult.ok)

/-- The upstream path downloaded for one filename (api/handler.go
line 147): `google/libphonenumber/v<version>/javascript/i18n/phonenumbers/<filename>`. -/
def downloadPathA (version filename : String) : String :=
  ("google/libphonenumber/v" ++ version ++ "/javascript/i18n/phonenumbers") ++ "/" ++ filename

/-- The download loop of variant A Commit (api/handler.go lines 146 to
151): any Download error is passed to log.Fatal, so the first failure
stops the run; the Bool records whether every download succeeded. -/
def downloadLoopA (w : WorldA) (version directory : String) : List String → List Action × Bool
  | [] => ([], true)
  | f :: rest =>
    let (as, r) := DownloadA w (downloadPathA version f) (directory ++ "/src")
    match r with
    | DlResult.ok =>
      let (bs, b) := downloadLoopA w version directory rest
      (as ++ bs, b)
    | _ => (as, false)

/-- Result of variant A Commit: fatal (log.Fatal inside the download
loop), an error returned to the caller, or success. -/
inductive CommitAResult
  | fatal
  | errored
  | ok
  deriving DecidableEq

/-- Variant A Commit (api/handler.go lines 131 to 197): force-checkout the
version branch, download every filename into `<directory>/src`, commit
with the version message, and push the branch when options.push is set.
Worktree and remote lookup failures are folded into the checkout and push
outcomes. -/
def CommitA (w : WorldA) (version directory : String) (options : CommitOptions) :
    List Action × CommitAResult :=
  let branchRef := "refs/heads/" ++ branchA version
  if w.checkoutOk = false then ([Action.checkout branchRef], CommitAResult.errored)
  else
    let (das, dok) := downloadLoopA w version directory filenames
    if dok = false then (Action.checkout branchRef :: das, CommitAResult.fatal)
    else
      let msg := commitMessageA version
      if w.commitOk = false then
        (Action.checkout branchRef :: das ++ [Action.commit msg], CommitAResult.errored)
      else if options.push = false then
        (Action.checkout branchRef :: das ++ [Action.commit msg], CommitAResult.ok)
      else
        let refspec := "refs/heads/" ++ branchA version ++ ":refs/heads/" ++ branchA version
        if w.pushOk = false then
          (Action.checkout branchRef :: das ++ [Action.commit msg, Action.push refspec],
           CommitAResult.errored)
        else
          (Action.checkout branchRef :: das ++ [Action.commit msg, Action.push refspec],
           CommitAResult.ok)

/-- Variant A OpenPullRequest (api/handler.go lines 231 to 250). -/
def OpenPullRequestA (w : WorldA) (version : String) : List Action × Bool :=
  ([Action.openPR (prTitleA version) (prHeadA version) prBaseA (prBodyA version)], w.prOk)

/-- Outcome of one variant A HandleEvent run. -/
inductive OutcomeA
  | skipped
  | completed
  | panicked
  | fatalExit
  deriving DecidableEq

/-- Variant A HandleEvent (api/handler.go lines 81 to 105): skip non-tag
references, otherwise clone, commit (which downloads and pushes), and
open a pull request whose returned error is ignored. -/
def HandleEventA (w : WorldA) (ref : String) : List Action × OutcomeA :=
  if containsSubstr ref "refs/tags/" = false then ([], OutcomeA.skipped)
  else
    let version := deriveVersion ref
    let (a1, cloneOk) := CloneA w
    if cloneOk = false then (a1, OutcomeA.panicked)
    else
      let (a2, r2) := CommitA w version dirA ⟨true⟩
      match r2 with
      | CommitAResult.fatal => (a1 ++ a2, OutcomeA.fatalExit)
      | CommitAResult.errored => (a1 ++ a2, OutcomeA.panicked)
      | CommitAResult.ok =>
        let (a3, _prOk) := OpenPullRequestA w version
        (a1 ++ a2 ++ a3, OutcomeA.completed)

/-- Variant A Handler (api/handler.go lines 58 to 78): reject non-POST
with 405 and a fixed body before parsing; panic on a parse failure; run
HandleEvent and only then write "OK", so a panic or fatal exit in the
pipeline prevents the "OK" response. -/
def HandlerA (w : WorldA) (method : String) (parseResult : Except Unit String) :
    HttpOut × List Action :=
  if method ≠ "POST" then
    (HttpOut.wrote 405 "Method not supported by libphonenumber-hook", [])
  else
    match parseResult with
    | Except.error _ => (HttpOut.panicked, [Action.parsePayload])
    | Except.ok ref =>
      let (as, o) := HandleEventA w ref
      match o with
      | OutcomeA.panicked => (HttpOut.panicked, Action.parsePayload :: as)
      | OutcomeA.fatalExit => (HttpOut.fatalExit, Action.parsePayload :: as)
      | _ => (HttpOut.wrote 200 "OK", Action.parsePayload :: as)

/-- Tar entry type flag, as inspected by webhooks/handler.go line 234
(`header.Typeflag != tar.TypeReg`). -/
inductive TarTypeflag
  | reg
  | dir
  | symlink
  | other
  deriving DecidableEq

/-- One entry of the decoded release tarball. -/
structure TarEntry where
  name : String
  typeflag : TarTypeflag
  content : Bytes
  deriving DecidableEq

/-- Decoded view of a gzip-compressed tar stream: the entries the tar
reader yields in order, and whether the stream ends in a non-EOF tar
error after them. -/
structure ArchiveStream where
  entries : List TarEntry
  truncated : Bool
  deriving DecidableEq

/-- The HTTP body returned for the archive URL: either a stream the gzip
reader accepts, or bytes on which `gzip.NewReader` fails (for example the
HTML error page of a non-200 response). -/
inductive GzBody
  | ok (s : ArchiveStream)
  | notGzip
  deriving DecidableEq

/-- Result of the archive HTTP GET in variant B. -/
inductive HttpFetch
  | netErr
  | resp (status : Nat) (body : GzBody)
  deriving DecidableEq

/-- External world for variant B: outcome of every external call the
webhooks/handler.go pipeline can make. -/
structure WorldB where
  cloneOk : Bool
  fetch : HttpFetch
  openFails : String → Bool
  copyFails : String → Bool
  checkoutOk : Bool
  commitOk : Bool
  pushOk : Bool
  prOk : Bool

/-- Temporary staging directory of variant B
(`ioutil.TempDir("", "libphonenumber")`; the concrete name is irrelevant
and fixed here). -/
def dirB : String := "/tmp/libphonenumber"

/-- Variant B Clone (webhooks/handler.go lines 85 to 113): installs a
custom HTTP client with a 15 second timeout for the git https transport,
then clones the downstream repository. -/
def CloneB (w : WorldB) : List Action × Bool :=
  ([Action.cloneRepo "https://github.com/ruimarinho/google-libphonenumber.git" 15], w.cloneOk)

/-- Variant B Download (webhooks/handler.go lines 256 to 264): plain
`http.Get` of the archive URL with the default client (no timeout, hence
0); the response body is returned without inspecting the status code. -/
def DownloadB (w : WorldB) (version : String) : List Action × Except Unit GzBody :=
  let url := "https://github.com/googlei18n/libphonenumber/archive/v" ++ version ++ ".tar.gz"
  match w.fetch with
  | HttpFetch.netErr => ([Action.httpGet url 0], Except.error ())
  | HttpFetch.resp _status body => ([Action.httpGet url 0], Except.ok body)

/-- How variant B Extract aborts: a panic from `gzip.NewReader`, a
returned tar read error, or a returned file open error. -/
inductive ExtractErr
  | gzipPanic
  | tarErr
  | openErr
  deriving DecidableEq

/-- The entry filter of webhooks/handler.go line 234: regular files whose
name contains the phonenumbers path marker. -/
def entryMatches (e : TarEntry) : Bool :=
  (match e.typeflag with | TarTypeflag.reg => true | _ => false)
    && containsSubstr e.name "javascript/i18n/phonenumbers/"

/-- The tar loop of variant B Extract (webhooks/handler.go lines 222 to
251).  A failing `os.OpenFile` aborts with its error.  A failing
`io.Copy` does NOT abort: line 248 guards the copy error with the stale
gzip error variable, which is nil on this path, so the loop continues;
the partially written content is modelled as empty bytes. -/
def extractLoop (w : WorldB) (directory : String) :
    List TarEntry → List Action × Except ExtractErr (List (String × Bytes))
  | [] => ([], Except.ok [])
  | e :: rest =>
    if entryMatches e = false then extractLoop w directory rest
    else
      let path := directory ++ "/src/" ++ baseName e.name
      if w.openFails path then ([], Except.error ExtractErr.openErr)
      else
        let written := if w.copyFails path then ([] : Bytes) else e.content
        let (as, r) := extractLoop w directory rest
        (Action.writeFile path written :: as,
         match r with
         | Except.error err => Except.error err
         | Except.ok files => Except.ok ((path, written) :: files))

/-- Variant B Extract (webhooks/handler.go lines 211 to 254): panic when
the body is not gzip, run the tar loop, surface a trailing tar error. -/
def ExtractB (w : WorldB) (b : GzBody) (directory : String) :
    List Action × Except ExtractErr (List (String × Bytes)) :=
  match b with
  | GzBody.notGzip => ([], Except.error ExtractErr.gzipPanic)
  | GzBody.ok s =>
    let (as, r) := extractLoop w directory s.entries
    match r with
    | Except.error err => (as, Except.error err)
    | Except.ok files =>
      if s.truncated then (as, Except.error ExtractErr.tarErr) else (as, Except.ok files)

/-- Result of variant B Commit. -/
inductive CommitBResult
  | errored
  | ok
  deriving DecidableEq

/-- Variant B Commit (webhooks/handler.go lines 116 to 159) plus its push
helper (lines 162 to 188): force-checkout the version branch, commit the
version message, push the branch when options.push is set.  Worktree and
remote lookup failures are folded into the checkout and push outcomes. -/
def CommitB (w : WorldB) (version : String) (options : CommitOptions) :
    List Action × CommitBResult :=
  let branchRef := "refs/heads/" ++ branchB version
  if w.checkoutOk = false then ([Action.checkout branchRef], CommitBResult.errored)
  else
    let msg := commitMessageB version
    if w.commitOk = false then
      ([Action.checkout branchRef, Action.commit msg], CommitBResult.errored)
    else if options.push = false then
      ([Action.checkout branchRef, Action.commit msg], CommitBResult.ok)
    else
      let refspec := "refs/heads/" ++ branchB version ++ ":refs/heads/" ++ branchB version
      if w.pushOk = false then
        ([Action.checkout branchRef, Action.commit msg, Action.push refspec],
         CommitBResult.errored)
      else
        ([Action.checkout branchRef, Action.commit msg, Action.push refspec],
         CommitBResult.ok)

/-- Variant B OpenPullRequest (webhooks/handler.go lines 190 to 209). -/
def OpenPullRequestB (w : WorldB) (version : String) : List Action × Bool :=
  ([Action.openPR (prTitleB version) (prHeadB version) prBaseB (prBodyB version)], w.prOk)

/-- Outcome of one variant B HandleEvent run; this variant has no
log.Fatal, so a fatal exit cannot occur. -/
inductive OutcomeB
  | skipped
  | completed
  | panicked
  deriving DecidableEq

/-- Variant B HandleEvent (webhooks/handler.go lines 43 to 78): skip
non-tag references, otherwise clone, download, extract, commit and push,
and open a pull request whose returned error is ignored. -/
def HandleEventB (w : WorldB) (ref : String) : List Action × OutcomeB :=
  if containsSubstr ref "refs/tags/" = false then ([], OutcomeB.skipped)
  else
    let version := deriveVersion ref
    let (a1, cloneOk) := CloneB w
    if cloneOk = false then (a1, OutcomeB.panicked)
    else
      let (a2, r2) := DownloadB w version
      match r2 with
      | Except.error _ => (a1 ++ a2, OutcomeB.panicked)
      | Except.ok body =>
        let (a3, r3) := ExtractB w body dirB
        match r3 with
        | Except.error _ => (a1 ++ a2 ++ a3, OutcomeB.panicked)
        | Except.ok _files =>
          let (a4, r4) := CommitB w version ⟨true⟩
          match r4 with
          | CommitBResult.errored => (a1 ++ a2 ++ a3 ++ a4, OutcomeB.panicked)
          | CommitBResult.ok =>
            let (a5, _prOk) := OpenPullRequestB w version
            (a1 ++ a2 ++ a3 ++ a4 ++ a5, OutcomeB.completed)

/-- Variant B Handle (webhooks/handler.go lines 29 to 40): no method
check at all; the payload is always parsed, a parse failure panics, and
"OK" is written only when HandleEvent returns without panicking.  The
request method is ignored by the source, hence the unused argument. -/
def HandleB (w : WorldB) (_method : String) (parseResult : Except Unit String) :
    HttpOut × List Action :=
  match parseResult with
  | Except.error _ => (HttpOut.panicked, [Action.parsePayload])
  | Except.ok ref =>
    let (as, o) := HandleEventB w ref
    match o with
    | OutcomeB.panicked => (HttpOut.panicked, Action.parsePayload :: as)
    | _ => (HttpOut.wrote 200 "OK", Action.parsePayload :: as)

/-- A fully successful external world for variant A: every raw download
answers 200 with empty bytes, nothing fails. -/
def wA0 : WorldA :=
  ⟨true, fun _ => false, fun _ => RawResult.resp 200 [], fun _ => false, true, true, true, true⟩

/-- A variant A world in which only the clone fails. -/
def wAfail : WorldA :=
  ⟨false, fun _ => false, fun _ => RawResult.resp 200 [], fun _ => false, true, true, true, true⟩

/-- A fully successful external world for variant B with an empty release
archive. -/
def wB0 : WorldB :=
  ⟨true, HttpFetch.resp 200 (GzBody.ok ⟨[], false⟩), fun _ => false, fun _ => false,
   true, true, true, true⟩

/-- A variant B world whose archive holds one matching regular entry and
whose destination write for that entry fails during io.Copy. -/
def wBbug : WorldB :=
  ⟨true,
   HttpFetch.resp 200 (GzBody.ok
     ⟨[⟨"libphonenumber-8.12.0/javascript/i18n/phonenumbers/metadata.js",
        TarTypeflag.reg, [1, 2, 3]⟩], false⟩),
   fun _ => false,
   fun p => p == "/tmp/libphonenumber/src/metadata.js",
   true, true, true, true⟩

/-- A tar entry under the phonenumbers marker whose base name is not in
the fixed filenames list. -/
def extraEntry : TarEntry :=
  ⟨"libphonenumber-9.0.0/javascript/i18n/phonenumbers/extra.js", TarTypeflag.reg, [7, 7]⟩

/-! Helper lemmas about the string embedding. -/

theorem string_ext (a b : String) (h : a.data = b.data) : a = b := by
  cases a
  cases b
  exact congrArg String.mk h

theorem string_mk_data (s : String) : String.mk s.data = s := by
  cases s
  rfl

theorem leads_self_append : ∀ (l t : List Char), leads l (l ++ t) = true
  | [], _ => rfl
  | c :: cs, t => by simp [leads, leads_self_append cs t]

theorem replaceAllAux_no_sub (pat rep : List Char) :
    ∀ (l : List Char) (fuel : Nat), l.length ≤ fuel → hasSub pat l = false →
      replaceAllAux pat rep fuel l = l := by
  intro l
  induction l with
  | nil => intro fuel _ _; cases fuel <;> rfl
  | cons c cs ih =>
    intro fuel hf hs
    cases fuel with
    | zero =>
      simp [List.length_cons] at hf
    | succ f =>
      rw [hasSub] at hs
      rcases Bool.or_eq_false_iff.mp hs with ⟨h1, h2⟩
      have hf' : cs.length ≤ f := by
        simp [List.length_cons] at hf
        omega
      simp [replaceAllAux, h1, ih f hf' h2]

theorem replaceAll_no_sub (pat rep l : List Char) (h : hasSub pat l = false) :
    replaceAll pat rep l = l :=
  replaceAllAux_no_sub pat rep l l.length (Nat.le_refl _) h

theorem replaceAll_head_cancel (p : Char) (ps rep S : List Char)
    (h : hasSub (p :: ps) S = false) :
    replaceAll (p :: ps) rep ((p :: ps) ++ S) = rep ++ S := by
  have hlen : ((p :: ps) ++ S).length = (ps.length + S.length) + 1 := by
    simp only [List.length_append, List.length_cons]
    omega
  have hnos : replaceAllAux (p :: ps) rep (ps.length + S.length) S = S :=
    replaceAllAux_no_sub (p :: ps) rep S (ps.length + S.length) (by omega) h
  have hl : leads (p :: ps) (p :: (ps ++ S)) = true := leads_self_append (p :: ps) S
  show replaceAllAux (p :: ps) rep ((p :: ps) ++ S).length ((p :: ps) ++ S) = rep ++ S
  rw [hlen]
  show replaceAllAux (p :: ps) rep ((ps.length + S.length) + 1) (p :: (ps ++ S)) = rep ++ S
  simp only [replaceAllAux, hl, if_true]
  simp [List.length_cons, Nat.add_sub_cancel, List.drop_left, hnos]

theorem replaceAllAux_single (a b : Char) :
    ∀ (l : List Char) (fuel : Nat), l.length ≤ fuel →
      replaceAllAux [a] [b] fuel l = l.map (fun c => if c = a then b else c) := by
  intro l
  induction l with
  | nil => intro fuel _; cases fuel <;> rfl
  | cons c cs ih =>
    intro fuel hf
    cases fuel with
    | zero =>
      simp [List.length_cons] at hf
    | succ f =>
      have hf' : cs.length ≤ f := by
        simp [List.length_cons] at hf
        omega
      have hl : leads [a] (c :: cs) = (a == c) := by simp [leads]
      cases hac : a == c with
      | true =>
        have hca : c = a := (eq_of_beq hac).symm
        rw [hca]
        have hltrue : leads [a] (a :: cs) = true := by simp [leads]
        simp [replaceAllAux, hltrue, ih f hf']
      | false =>
        have hca : ¬(c = a) := fun he => by
          rw [he] at hac
          simp at hac
        have hlfalse : leads [a] (c :: cs) = false := by rw [hl, hac]
        simp [replaceAllAux, hlfalse, hca, ih f hf']

theorem replaceAllStr_dot (v : String) :
    replaceAllStr v "." "-" = String.mk (v.data.map (fun c => if c = '.' then '-' else c)) := by
  show String.mk (replaceAllAux ['.'] ['-'] v.data.length v.data) = _
  exact congrArg String.mk (replaceAllAux_single '.' '-' v.data v.data.length (Nat.le_refl _))

theorem subst1_no_pct (rep : List Char) :
    ∀ (l : List Char), (∀ c ∈ l, (c == '%') = false) →
      ∀ (t : List Char), subst1 ['%', 's'] rep (l ++ '%' :: 's' :: t) = l ++ rep ++ t := by
  intro l
  induction l with
  | nil =>
    intro _ t
    have hl : leads ['%', 's'] ('%' :: 's' :: t) = true := by simp [leads]
    simp [subst1, hl]
  | cons c cs ih =>
    intro h t
    have hc : (c == '%') = false := h c (List.mem_cons_self c cs)
    have hpc : ('%' == c) = false := by
      cases hb : ('%' == c) with
      | false => rfl
      | true =>
        have hcEq := eq_of_beq hb
        rw [← hcEq] at hc
        simp at hc
    have hl : leads ['%', 's'] (c :: (cs ++ '%' :: 's' :: t)) = false := by
      simp [leads, hpc]
    simp [subst1, hl, ih (fun x hx => h x (List.mem_cons_of_mem c hx)) t]

theorem formatS_tail (pre arg : String) (t : List Char)
    (h : ∀ c ∈ pre.data, (c == '%') = false) :
    formatS ⟨pre.data ++ '%' :: 's' :: t⟩ arg = ⟨pre.data ++ arg.data ++ t⟩ := by
  show String.mk (subst1 ['%', 's'] arg.data (pre.data ++ '%' :: 's' :: t)) = _
  exact congrArg String.mk (subst1_no_pct arg.data pre.data h t)

theorem takeWhile_append_all (q : Char → Bool) :
    ∀ (l₁ l₂ : List Char), (∀ c ∈ l₁, q c = true) →
      List.takeWhile q (l₁ ++ l₂) = l₁ ++ List.takeWhile q l₂ := by
  intro l₁
  induction l₁ with
  | nil => intro l₂ _; rfl
  | cons c cs ih =>
    intro l₂ h
    have hc : q c = true := h c (List.mem_cons_self c cs)
    simp [List.takeWhile_cons, hc, ih l₂ (fun x hx => h x (List.mem_cons_of_mem c hx))]

theorem baseName_concat (p f : String) (h1 : f.data ≠ [])
    (h2 : ∀ c ∈ f.data, (c == '/') = false) :
    baseName (p ++ "/" ++ f) = f := by
  have hrne : f.data.reverse ≠ [] := by simpa using h1
  obtain ⟨d, ds, hds⟩ : ∃ d ds, f.data.reverse = d :: ds := by
    cases hr : f.data.reverse with
    | nil => exact absurd hr hrne
    | cons d ds => exact ⟨d, ds, rfl⟩
  have hdata : (p ++ "/" ++ f).data = (p.data ++ ['/']) ++ f.data := rfl
  have hrev : ((p.data ++ ['/']) ++ f.data).reverse = d :: (ds ++ '/' :: p.data.reverse) := by
    rw [List.reverse_append, List.reverse_append, hds]
    simp
  have hdmem : d ∈ f.data := List.mem_reverse.mp (hds ▸ List.mem_cons_self d ds)
  have hd : (d == '/') = false := h2 d hdmem
  have hdropW : ((p.data ++ ['/']) ++ f.data).reverse.dropWhile (fun c => c == '/')
      = d :: (ds ++ '/' :: p.data.reverse) := by
    rw [hrev]
    simp [List.dropWhile_cons, hd]
  have hall : ∀ c ∈ (d :: ds), (!(c == '/')) = true := by
    intro c hcmem
    have : c ∈ f.data := List.mem_reverse.mp (hds ▸ hcmem)
    simp [h2 c this]
  have htake : (d :: (ds ++ '/' :: p.data.reverse)).takeWhile (fun c => !(c == '/'))
      = d :: ds := by
    have hsplit : d :: (ds ++ '/' :: p.data.reverse) = (d :: ds) ++ '/' :: p.data.reverse := by
      simp
    rw [hsplit, takeWhile_append_all _ (d :: ds) _ hall]
    simp [List.takeWhile_cons]
  have hbase : (d :: ds).reverse = f.data := by
    rw [← hds, List.reverse_reverse]
  have hresult : baseName (p ++ "/" ++ f) = String.mk f.data := by
    unfold baseName
    rw [hdata]
    rw [if_neg (by simp)]
    simp only [hdropW, htake, hbase]
    rw [if_neg h1]
  rw [hresult]

theorem src_path (d f : String) : (d ++ "/src") ++ "/" ++ f = d ++ "/src/" ++ f := by
  apply string_ext
  show (((d.data ++ "/src".data) ++ "/".data) ++ f.data) = ((d.data ++ "/src/".data) ++ f.data)
  simp only [List.append_assoc]
  rfl

theorem filenames_base (version : String) :
    ∀ f ∈ filenames, baseName (downloadPathA version f) = f := by
  intro f hf
  simp only [filenames, List.mem_cons, List.not_mem_nil, or_false] at hf
  rcases hf with rfl | rfl | rfl | rfl | rfl | rfl | rfl | rfl | rfl | rfl | rfl | rfl | rfl | rfl <;>
    exact baseName_concat _ _ (by decide) (by decide)

theorem downloadLoopA_success (w : WorldA) (version directory : String)
    (hc : ∀ p, w.createFails p = false)
    (hn : ∀ u, w.rawGet u ≠ RawResult.netErr)
    (hk : ∀ p, w.copyFails p = false) :
    ∀ fs : List String, (∀ f ∈ fs, baseName (downloadPathA version f) = f) →
      (downloadLoopA w version directory fs).2 = true ∧
      stagedWrites (downloadLoopA w version directory fs).1 =
        fs.map (fun f =>
          (directory ++ "/src/" ++ f,
           respBody (w.rawGet ("https://raw.githubusercontent.com/" ++ downloadPathA version f)))) := by
  intro fs
  induction fs with
  | nil => intro _; exact ⟨rfl, rfl⟩
  | cons f rest ih =>
    intro hb
    have hbf : baseName (downloadPathA version f) = f := hb f (List.mem_cons_self f rest)
    have hrest := ih (fun x hx => hb x (List.mem_cons_of_mem f hx))
    cases hru : w.rawGet ("https://raw.githubusercontent.com/" ++ downloadPathA version f) with
    | netErr => exact absurd hru (hn _)
    | resp st body =>
      constructor
      · simp [downloadLoopA, DownloadA, hc, hk, hru]
        exact hrest.1
      · simp [downloadLoopA, DownloadA, hc, hk, hru, stagedWrites, hbf, src_path, respBody]
        simpa [stagedWrites] using hrest.2

theorem replaceAll_cancel_ne (pat rep S : List Char) (hne : pat ≠ [])
    (h : hasSub pat S = false) :
    replaceAll pat rep (pat ++ S) = rep ++ S := by
  cases pat with
  | nil => exact absurd rfl hne
  | cons p ps => exact replaceAll_head_cancel p ps rep S h

theorem extractLoop_closed (w : WorldB) (directory : String)
    (ho : ∀ p, w.openFails p = false) :
    ∀ es : List TarEntry,
      extractLoop w directory es =
        ((es.filter entryMatches).map (fun e =>
            Action.writeFile (directory ++ "/src/" ++ baseName e.name)
              (if w.copyFails (directory ++ "/src/" ++ baseName e.name) then ([] : Bytes)
               else e.content)),
         Except.ok ((es.filter entryMatches).map (fun e =>
            (directory ++ "/src/" ++ baseName e.name,
             if w.copyFails (directory ++ "/src/" ++ baseName e.name) then ([] : Bytes)
             else e.content)))) := by
  intro es
  induction es with
  | nil => rfl
  | cons e rest ih =>
    cases hm : entryMatches e with
    | false => simp [extractLoop, hm, List.filter_cons, ih]
    | true => simp [extractLoop, hm, ho, List.filter_cons, ih]

/-! Claim theorems. -/

/-- Claim C1, counterexample.  The claim says: for every push reference
containing "refs/tags/v" followed by a string S, the derived version
equals S exactly.  It is false as stated: the code removes every
occurrence of "refs/tags/v" and keeps any surrounding text, so when S
itself contains the pattern, or when text precedes the pattern, the
derived version differs from S. -/
theorem c1_counterexample :
    deriveVersion ("refs/tags/v" ++ "refs/tags/v1.2.3") ≠ "refs/tags/v1.2.3" ∧
    deriveVersion ("refs/tags/v" ++ "refs/tags/v1.2.3") = "1.2.3" ∧
    deriveVersion ("x" ++ "refs/tags/v" ++ "1.2.3") ≠ "1.2.3" ∧
    deriveVersion ("x" ++ "refs/tags/v" ++ "1.2.3") = "x1.2.3" := by
  decide

/-- Claim C1, amended.  For every push reference of the form
"refs/tags/v" ++ S where S itself does not contain "refs/tags/v", the
derived version equals S exactly, including any non-numeric suffix: no
validation of the remainder is performed. -/
theorem c1_version_derivation :
    ∀ S : String, containsSubstr S "refs/tags/v" = false →
      deriveVersion ("refs/tags/v" ++ S) = S := by
  intro S h
  apply string_ext
  show replaceAll "refs/tags/v".data [] ("refs/tags/v".data ++ S.data) = S.data
  rw [replaceAll_cancel_ne "refs/tags/v".data [] S.data (by decide) h]
  rfl

/-- Claim C1, witness: a version string with a non-numeric suffix is
accepted verbatim. -/
theorem c1_witness :
    containsSubstr "8.12.0-beta1" "refs/tags/v" = false ∧
    deriveVersion ("refs/tags/v" ++ "8.12.0-beta1") = "8.12.0-beta1" :=
  ⟨by decide, c1_version_derivation "8.12.0-beta1" (by decide)⟩

/-- Claim C2, evaluation at the failing input.  In a run whose archive
holds one matching regular entry whose destination write fails during
io.Copy, the pipeline does NOT abort: webhooks/handler.go line 248
guards the copy error with the stale gzip error variable, so the
truncated file (modelled as empty bytes) is staged, the commit is
created, the branch is pushed, the pull request is opened and "OK" is
written, contradicting the claim that a destination-write failure is
fatal and aborts before any commit. -/
theorem c2_write_failure_commits :
    (HandleB wBbug "POST" (Except.ok "refs/tags/v8.12.0")).1 = HttpOut.wrote 200 "OK" ∧
    Action.writeFile "/tmp/libphonenumber/src/metadata.js" [] ∈
      (HandleB wBbug "POST" (Except.ok "refs/tags/v8.12.0")).2 ∧
    Action.commit "Update libphonenumber@8.12.0" ∈
      (HandleB wBbug "POST" (Except.ok "refs/tags/v8.12.0")).2 ∧
    Action.openPR "Update libphonenumber@8.12.0" "support/update-libphonenumber-8-12-0"
        "master" "Update libphonenumber@8.12.0." ∈
      (HandleB wBbug "POST" (Except.ok "refs/tags/v8.12.0")).2 := by
  decide

/-- Claim C4.  For every push reference that does not contain
"refs/tags/", both pipeline variants log a skip and return with an empty
action trace: no clone, fetch, write, commit, push or pull-request call
is performed. -/
theorem c4_non_tag_noop :
    ∀ (wa : WorldA) (wb : WorldB) (ref : String),
      containsSubstr ref "refs/tags/" = false →
      HandleEventA wa ref = ([], OutcomeA.skipped) ∧
      HandleEventB wb ref = ([], OutcomeB.skipped) := by
  intro wa wb ref h
  constructor
  · simp [HandleEventA, h]
  · simp [HandleEventB, h]

/-- Claim C4, witness at the branch-push reference of the spec's
end-to-end skip scenario. -/
theorem c4_witness :
    containsSubstr "refs/heads/master" "refs/tags/" = false ∧
    HandleEventA wA0 "refs/heads/master" = ([], OutcomeA.skipped) ∧
    HandleEventB wB0 "refs/heads/master" = ([], OutcomeB.skipped) :=
  ⟨by decide, c4_non_tag_noop wA0 wB0 "refs/heads/master" (by decide)⟩

/-- Claim C5.  The derived branch name is the fixed template
"support/update-libphonenumber-%s" instantiated with the version in
which every "." is replaced by "-"; version "1.2.3" yields
"support/update-libphonenumber-1-2-3"; and the derivation is a pure
function, so repeated derivations from the same version coincide. -/
theorem c5_branch_name :
    (∀ version : String, branchA version =
        "support/update-libphonenumber-" ++
          String.mk (version.data.map (fun c => if c = '.' then '-' else c))) ∧
    branchA "1.2.3" = "support/update-libphonenumber-1-2-3" ∧
    (∀ version : String, branchA version = branchA version) := by
  refine ⟨?_, by decide, fun _ => rfl⟩
  intro v
  have h1 : remoteBranchFormat =
      String.mk ("support/update-libphonenumber-".data ++ '%' :: 's' :: []) := by decide
  have h2 := formatS_tail "support/update-libphonenumber-" (replaceAllStr v "." "-") []
    (by decide)
  have h3 := replaceAllStr_dot v
  show formatS remoteBranchFormat (replaceAllStr v "." "-") =
    "support/update-libphonenumber-" ++
      String.mk (v.data.map (fun c => if c = '.' then '-' else c))
  rw [h1, h2, h3]
  apply string_ext
  simp

/-- Claim C6.  End-to-end scenario on reference "refs/tags/v8.12.0" with
every external call succeeding, in both variants: the derived version is
"8.12.0", the branch is "support/update-libphonenumber-8-12-0", the
commit message is "Update libphonenumber@8.12.0", the response is 200
"OK", and the opened pull request has that title, that head branch and
base "master". -/
theorem c6_end_to_end :
    deriveVersion "refs/tags/v8.12.0" = "8.12.0" ∧
    branchA "8.12.0" = "support/update-libphonenumber-8-12-0" ∧
    (HandlerA wA0 "POST" (Except.ok "refs/tags/v8.12.0")).1 = HttpOut.wrote 200 "OK" ∧
    Action.checkout "refs/heads/support/update-libphonenumber-8-12-0" ∈
      (HandlerA wA0 "POST" (Except.ok "refs/tags/v8.12.0")).2 ∧
    Action.commit "Update libphonenumber@8.12.0" ∈
      (HandlerA wA0 "POST" (Except.ok "refs/tags/v8.12.0")).2 ∧
    Action.openPR "Update libphonenumber@8.12.0" "support/update-libphonenumber-8-12-0"
        "master" "Update libphonenumber@8.12.0." ∈
      (HandlerA wA0 "POST" (Except.ok "refs/tags/v8.12.0")).2 ∧
    (HandleB wB0 "POST" (Except.ok "refs/tags/v8.12.0")).1 = HttpOut.wrote 200 "OK" ∧
    Action.checkout "refs/heads/support/update-libphonenumber-8-12-0" ∈
      (HandleB wB0 "POST" (Except.ok "refs/tags/v8.12.0")).2 ∧
    Action.commit "Update libphonenumber@8.12.0" ∈
      (HandleB wB0 "POST" (Except.ok "refs/tags/v8.12.0")).2 ∧
    Action.openPR "Update libphonenumber@8.12.0" "support/update-libphonenumber-8-12-0"
        "master" "Update libphonenumber@8.12.0." ∈
      (HandleB wB0 "POST" (Except.ok "refs/tags/v8.12.0")).2 := by
  decide

/-- Claim C3, counterexample.  The claim says the staging src subfolder
contains exactly the fixed set of known target filenames after a
successful fetch-and-stage step.  The tarball extractor refutes it: an
archive holding a regular entry under the path marker whose base name is
not in the fixed list stages that file and succeeds, so the staged set
is neither free of extras nor complete. -/
theorem c3_counterexample :
    (ExtractB wB0 (GzBody.ok ⟨[extraEntry], false⟩) dirB).2 =
      Except.ok [("/tmp/libphonenumber/src/extra.js", [7, 7])] ∧
    ¬ ("extra.js" ∈ filenames) ∧ "metadata.js" ∈ filenames := by
  constructor
  · rfl
  · constructor
    · decide
    · decide

/-- Claim C3, amended.  In the per-file downloader variant, a successful
fetch-and-stage step stages exactly the fixed set of known target
filenames into the src subfolder, no extras and no omissions, each with
content byte-for-byte equal to the body returned by the corresponding
upstream raw-file fetch; the tarball extractor instead stages exactly
the regular archive entries whose names contain the path marker,
flattened to their base names, with no check against the fixed list. -/
theorem c3_staging :
    (∀ (w : WorldA) (version directory : String),
      (∀ p, w.createFails p = false) →
      (∀ u, w.rawGet u ≠ RawResult.netErr) →
      (∀ p, w.copyFails p = false) →
      (downloadLoopA w version directory filenames).2 = true ∧
      stagedWrites (downloadLoopA w version directory filenames).1 =
        filenames.map (fun f =>
          (directory ++ "/src/" ++ f,
           respBody (w.rawGet ("https://raw.githubusercontent.com/" ++ downloadPathA version f))))) ∧
    (∀ (w : WorldB) (directory : String) (es : List TarEntry),
      (∀ p, w.openFails p = false) →
      (∀ p, w.copyFails p = false) →
      (ExtractB w (GzBody.ok ⟨es, false⟩) directory).2 =
        Except.ok ((es.filter entryMatches).map (fun e =>
          (directory ++ "/src/" ++ baseName e.name, e.content)))) := by
  constructor
  · intro w version directory hc hn hk
    exact downloadLoopA_success w version directory hc hn hk filenames (filenames_base version)
  · intro w directory es ho hk
    have hx := extractLoop_closed w directory ho es
    simp [ExtractB, hx, hk]

/-- Claim C3, witness: the per-file downloader against a fully
successful world stages exactly the fixed filenames. -/
theorem c3_witness :
    (downloadLoopA wA0 "8.12.0" dirA filenames).2 = true ∧
    stagedWrites (downloadLoopA wA0 "8.12.0" dirA filenames).1 =
      filenames.map (fun f =>
        (dirA ++ "/src/" ++ f,
         respBody (wA0.rawGet ("https://raw.githubusercontent.com/" ++ downloadPathA "8.12.0" f)))) :=
  c3_staging.1 wA0 "8.12.0" dirA (fun _ => rfl) (fun u h => by simp [wA0] at h) (fun _ => rfl)

/-- Claim C7, counterexample.  The claim says that whenever the payload
parses successfully, the handler writes "OK" regardless of downstream
outcome.  False: when the clone fails, HandleEvent panics via log.Panic
before Handler reaches its "OK" write, so no "OK" response is produced. -/
theorem c7_counterexample :
    (HandlerA wAfail "POST" (Except.ok "refs/tags/v8.12.0")).1 = HttpOut.panicked ∧
    HttpOut.panicked ≠ HttpOut.wrote 200 "OK" := by
  decide

/-- Claim C7, amended.  Whenever the payload parses successfully, the
handler writes "OK" when the reference is not a tag, and when every
stage through push succeeds, in which case a pull-request-creation
failure is ignored and "OK" is still written; but a clone, fetch, stage,
commit or push failure panics or exits before the "OK" write. -/
theorem c7_ok_response :
    (∀ (w : WorldA) (ref : String), containsSubstr ref "refs/tags/" = false →
      (HandlerA w "POST" (Except.ok ref)).1 = HttpOut.wrote 200 "OK") ∧
    (∀ (w : WorldA) (ref : String),
      w.cloneOk = true →
      (∀ p, w.createFails p = false) →
      (∀ u, w.rawGet u ≠ RawResult.netErr) →
      (∀ p, w.copyFails p = false) →
      w.checkoutOk = true → w.commitOk = true → w.pushOk = true →
      (HandlerA w "POST" (Except.ok ref)).1 = HttpOut.wrote 200 "OK") ∧
    (∀ (w : WorldB) (ref : String) (status : Nat) (es : List TarEntry),
      w.cloneOk = true →
      w.fetch = HttpFetch.resp status (GzBody.ok ⟨es, false⟩) →
      (∀ p, w.openFails p = false) →
      w.checkoutOk = true → w.commitOk = true → w.pushOk = true →
      (HandleB w "POST" (Except.ok ref)).1 = HttpOut.wrote 200 "OK") := by
  refine ⟨?_, ?_, ?_⟩
  · intro w ref h
    simp [HandlerA, HandleEventA, h]
  · intro w ref h1 hc hn hk hco hcm hpu
    by_cases htag : containsSubstr ref "refs/tags/" = false
    · simp [HandlerA, HandleEventA, htag]
    · have htag' : containsSubstr ref "refs/tags/" = true := by
        cases hcase : containsSubstr ref "refs/tags/" with
        | false => exact absurd hcase htag
        | true => rfl
      rcases hL : downloadLoopA w (deriveVersion ref) dirA filenames with ⟨das, dok⟩
      have hdok : dok = true := by
        have hx := (downloadLoopA_success w (deriveVersion ref) dirA hc hn hk filenames
          (filenames_base (deriveVersion ref))).1
        rw [hL] at hx
        exact hx
      subst hdok
      rcases hC : CommitA w (deriveVersion ref) dirA ⟨true⟩ with ⟨a2, r2⟩
      have hr2 : r2 = CommitAResult.ok := by
        have hx : (CommitA w (deriveVersion ref) dirA ⟨true⟩).2 = CommitAResult.ok := by
          simp [CommitA, hL, hco, hcm, hpu]
        rw [hC] at hx
        exact hx
      subst hr2
      simp [HandlerA, HandleEventA, htag', CloneA, h1, hC, OpenPullRequestA]
  · intro w ref status es h1 hf ho hco hcm hpu
    by_cases htag : containsSubstr ref "refs/tags/" = false
    · simp [HandleB, HandleEventB, htag]
    · have htag' : containsSubstr ref "refs/tags/" = true := by
        cases hcase : containsSubstr ref "refs/tags/" with
        | false => exact absurd hcase htag
        | true => rfl
      have hx := extractLoop_closed w dirB ho es
      simp [HandleB, HandleEventB, htag', CloneB, h1, DownloadB, hf, ExtractB, hx,
        CommitB, hco, hcm, hpu, OpenPullRequestB]

/-- Claim C7, witness: a fully successful run answers "OK". -/
theorem c7_witness :
    (HandlerA wA0 "POST" (Except.ok "refs/tags/v8.12.0")).1 = HttpOut.wrote 200 "OK" :=
  c7_ok_response.2.1 wA0 "refs/tags/v8.12.0" rfl (fun _ => rfl)
    (fun u h => by simp [wA0] at h) (fun _ => rfl) rfl rfl rfl

/-- Claim C8, counterexample.  The claim says every non-POST request is
answered with a 405-equivalent status and a fixed plaintext body without
parsing the payload.  The webhooks-variant Handle refutes it: it has no
method check, always attempts to parse the payload, and on the parse
failure that a non-POST request produces it panics instead of writing
any 405 response. -/
theorem c8_counterexample :
    HandleB wB0 "GET" (Except.error ()) = (HttpOut.panicked, [Action.parsePayload]) ∧
    HttpOut.panicked ≠ HttpOut.wrote 405 "Method not supported by libphonenumber-hook" := by
  decide

/-- Claim C8, amended.  The api-variant Handler answers every non-POST
request with status 405 and the fixed body "Method not supported by
libphonenumber-hook", without parsing the payload or running any
pipeline stage; the webhooks-variant Handle performs no method check: it
always attempts to parse the payload and only ever panics or writes 200
"OK", never a 405 response. -/
theorem c8_method_check :
    (∀ (w : WorldA) (method : String) (pr : Except Unit String), method ≠ "POST" →
      HandlerA w method pr =
        (HttpOut.wrote 405 "Method not supported by libphonenumber-hook", [])) ∧
    (∀ (w : WorldB) (method : String) (pr : Except Unit String),
      (HandleB w method pr).1 = HttpOut.panicked ∨
      (HandleB w method pr).1 = HttpOut.wrote 200 "OK") ∧
    (∀ (w : WorldB) (method : String) (pr : Except Unit String),
      Action.parsePayload ∈ (HandleB w method pr).2) := by
  refine ⟨?_, ?_, ?_⟩
  · intro w method pr h
    simp [HandlerA, h]
  · intro w method pr
    cases pr with
    | error e => exact Or.inl rfl
    | ok ref =>
      rcases hE : HandleEventB w ref with ⟨as, o⟩
      cases o with
      | panicked => exact Or.inl (by simp [HandleB, hE])
      | skipped => exact Or.inr (by simp [HandleB, hE])
      | completed => exact Or.inr (by simp [HandleB, hE])
  · intro w method pr
    cases pr with
    | error e => simp [HandleB]
    | ok ref =>
      rcases hE : HandleEventB w ref with ⟨as, o⟩
      cases o <;> simp [HandleB, hE]

/-- Claim C8, witness: the api-variant Handler rejects a GET request. -/
theorem c8_witness :
    HandlerA wA0 "GET" (Except.error ()) =
      (HttpOut.wrote 405 "Method not supported by libphonenumber-hook", []) :=
  c8_method_check.1 wA0 "GET" (Except.error ()) (by decide)

/-- Claim C9, counterexample.  The claim says every upstream fetch is
bounded by a fixed 15-second client timeout.  False: the archive
download of a successful tarball-variant run is performed with Go's
default HTTP client, which has no timeout (recorded as 0, not 15). -/
theorem c9_counterexample :
    Action.httpGet "https://github.com/googlei18n/libphonenumber/archive/v8.12.0.tar.gz" 0 ∈
      (HandleEventB wB0 "refs/tags/v8.12.0").1 ∧ (0 : Nat) ≠ 15 := by
  decide

/-- Claim C9, amended.  Only the git transport installed by the
tarball-variant Clone carries the fixed 15-second client timeout; the
tarball download, the per-file raw downloads and the per-file variant's
clone all run with no configured client timeout. -/
theorem c9_timeouts :
    (∀ w : WorldB, (CloneB w).1 =
      [Action.cloneRepo "https://github.com/ruimarinho/google-libphonenumber.git" 15]) ∧
    (∀ (w : WorldB) (version : String), (DownloadB w version).1 =
      [Action.httpGet
        ("https://github.com/googlei18n/libphonenumber/archive/v" ++ version ++ ".tar.gz") 0]) ∧
    (∀ w : WorldA, (CloneA w).1 =
      [Action.cloneRepo "https://github.com/ruimarinho/google-libphonenumber.git" 0]) ∧
    (∀ (w : WorldA) (path directory url : String) (t : Nat),
      Action.httpGet url t ∈ (DownloadA w path directory).1 → t = 0) := by
  refine ⟨fun w => rfl, ?_, ?_, ?_⟩
  · intro w version
    cases hf : w.fetch <;> simp [DownloadB, hf]
  · intro w
    simp [CloneA]
    decide
  · intro w path directory url t hmem
    by_cases hcf : w.createFails (directory ++ "/" ++ baseName path)
    · simp [DownloadA, hcf] at hmem
    · cases hr : w.rawGet ("https://raw.githubusercontent.com/" ++ path) with
      | netErr =>
        simp [DownloadA, hcf, hr] at hmem
        exact hmem.2
      | resp status body =>
        by_cases hk : w.copyFails (directory ++ "/" ++ baseName path)
        · simp [DownloadA, hcf, hr, hk] at hmem
          exact hmem.2
        · simp [DownloadA, hcf, hr, hk] at hmem
          exact hmem.2

/-- Claim C9, witness: a raw-file download action indeed carries
timeout 0. -/
theorem c9_witness : (0 : Nat) = 0 :=
  c9_timeouts.2.2.2 wA0 "p" "d" "https://raw.githubusercontent.com/p" 0 (by decide)

/-- Claim C10.  Both fetch-strategy variants derive identical
version-derived strings: branch name, commit message, pull-request
title, body, head branch and base branch. -/
theorem c10_variants_agree :
    ∀ version : String,
      branchA version = branchB version ∧
      commitMessageA version = commitMessageB version ∧
      prTitleA version = prTitleB version ∧
      prBodyA version = prBodyB version ∧
      prHeadA version = prHeadB version ∧
      prBaseA = prBaseB :=
  fun _ => ⟨rfl, rfl, rfl, rfl, rfl, rfl⟩

end LibHook
